import Mathlib

set_option linter.unusedVariables false
set_option linter.unnecessarySimpa false

/-!
Shallow embedding of `src/main.py` of gdrive-sync-python-util.

The file models:
  * `Syncable` and `ServiceAccount.upload / update / download / last_mod / sync`
    (the sync decision engine),
  * the JSON manifest as a `JVal` tree and `sync_from_file` (the manifest runner),
and proves the behavioural claims about them.

Remote calls are represented by an `Op` trace; the remote backend's behaviour
(the id assigned by a create, the server-side modification stamp, and whether
each call succeeds) is an explicit `Backend` parameter, and the state touched
by one target's sync (local bytes, local mtime, the remote object) is a
`FileWorld`.
-/

/-- JSON values as produced by `json.load` (objects keep insertion order,
as Python dicts do; numbers are restricted to integers, which is all the
manifest format uses). -/
inductive JVal where
  | null
  | bool (b : Bool)
  | num (n : Int)
  | str (s : String)
  | arr (xs : List JVal)
  | obj (fields : List (String × JVal))

/-- Python-level failures that the code under `src/` can raise, per the
spec's error taxonomy (§7): `configError` covers credential-file problems,
`remoteWrite`/`remoteRead` the backend failures, `keyError`/`typeError`
the dictionary and comparison failures of the interpreter itself. -/
inductive PyErr where
  | keyError
  | typeError
  | configError
  | remoteWrite
  | remoteRead
deriving DecidableEq

/-- The four remote calls `ServiceAccount` issues: `files().create`,
`files().update`, `files().get_media`, and `files().get(fields='modifiedTime')`.
An `Op` is recorded when the HTTP request is executed, whether or not the
backend accepts it. -/
inductive Op where
  | create
  | update
  | download
  | getMeta
deriving DecidableEq

/-- An RFC 3339 timestamp as carried in the backend's `modifiedTime` field,
already split into its clock reading (in microseconds) and its UTC offset
(in microseconds; `none` models a string with no offset designator).
Modelled from the spec: the remote backend returns `modifiedTime` as a
timestamp string "normalized to a timezone-aware instant (UTC)" (§4.1),
i.e. with `offset = some 0`. -/
structure ISOTimestamp where
  value : Int
  offset : Option Int
deriving DecidableEq

/-- The instant an `ISOTimestamp` denotes, as microseconds since the epoch
(a missing offset is read as zero; Python would instead refuse to compare
such a naive value with an aware one, which `PyDatetime.ltE` models). -/
def ISOTimestamp.instant (t : ISOTimestamp) : Int :=
  t.value - t.offset.getD 0

/-- A Python `datetime`: a naive clock reading in microseconds plus an
optional UTC offset (`none` = naive, `some o` = timezone-aware). -/
structure PyDatetime where
  naive : Int
  offset : Option Int
deriving DecidableEq

/-- The instant a `PyDatetime` denotes (microseconds since the epoch). -/
def PyDatetime.instant (d : PyDatetime) : Int :=
  d.naive - d.offset.getD 0

/-- `datetime.fromtimestamp(ts, tz=timezone.utc)`: an aware datetime in UTC. -/
def fromtimestampUtc (ts : Int) : PyDatetime :=
  { naive := ts, offset := some 0 }

/-- `datetime.fromisoformat` on a parsed RFC 3339 timestamp: keeps the
offset it finds (it does not convert to UTC; an input with no offset
yields a naive datetime). -/
def fromisoformat (t : ISOTimestamp) : PyDatetime :=
  { naive := t.value, offset := t.offset }

/-- Python's `<` on datetimes: defined when both are aware (compare
instants) or both naive (compare clock readings), a `TypeError` otherwise. -/
def PyDatetime.ltE (a b : PyDatetime) : Except PyErr Bool :=
  match a.offset, b.offset with
  | some oa, some ob => .ok (decide (a.naive - oa < b.naive - ob))
  | none, none => .ok (decide (a.naive < b.naive))
  | _, _ => .error .typeError

/-- Python's `>` on datetimes (the reflected comparison). -/
def PyDatetime.gtE (a b : PyDatetime) : Except PyErr Bool :=
  PyDatetime.ltE b a

/-- `Syncable` from `src/main.py`: a local path and the optional Drive id. -/
structure Syncable where
  path : String
  id : Option String
deriving DecidableEq

/-- `Path(p).name`: the final component of the path (the characters after
the last separator). -/
def pathName (p : String) : String :=
  String.mk (p.toList.foldl (fun acc c => if c = '/' then [] else acc ++ [c]) [])

/-- The remote object corresponding to one target, as the backend stores it. -/
structure RemoteState where
  name : String
  content : List Nat
  modified : ISOTimestamp
  parent : JVal

/-- The state one target's sync can read or write: the local file's bytes
and mtime (`st_mtime`, as microseconds since the epoch, UTC), the current
wall clock (a fresh local write stamps the file with it), and the remote
object if one exists for the target's id. -/
structure FileWorld where
  localBytes : List Nat
  localMtime : Int
  clock : Int
  remote : Option RemoteState

/-- Modelled from the spec: the remote backend boundary (§4.1, §6) is not
code of this repository, so its per-call behaviour is a parameter: the id
it assigns to a created object, the `modifiedTime` stamp it records on a
successful create/update, and whether it accepts each kind of call
(`false` models auth rejection, quota, bad id, network failure). -/
structure Backend where
  newId : String
  serverStamp : ISOTimestamp
  createOk : Bool
  updateOk : Bool
  downloadOk : Bool
  metaOk : Bool
deriving DecidableEq

/-- `ServiceAccount` from `src/main.py`; credentials and the Drive service
handle are opaque, so only the root folder id is carried. -/
structure ServiceAccount where
  root : JVal

/-- `ServiceAccount.upload`: one `files().create` call; on success the new
remote object is named after the local file's base name, parented under
`folder_id` if given else the session root, and the target's `id` is set
to the id the backend returns. -/
def ServiceAccount.upload (acct : ServiceAccount) (B : Backend) (W : FileWorld)
    (file : Syncable) (folder_id : Option JVal) :
    Except PyErr Syncable × FileWorld × List Op :=
  let parent := match folder_id with
    | some f => f
    | none => acct.root
  let created : RemoteState :=
    { name := pathName file.path, content := W.localBytes,
      modified := B.serverStamp, parent := parent }
  if B.createOk then
    (.ok { file with id := some B.newId }, { W with remote := some created }, [.create])
  else
    (.error .remoteWrite, W, [.create])

/-- `ServiceAccount.update`: one `files().update` call; on success the
remote object's name and content are overwritten with the local file's,
and the backend records its own modification stamp. -/
def ServiceAccount.update (acct : ServiceAccount) (B : Backend) (W : FileWorld)
    (file : Syncable) : Except PyErr Unit × FileWorld × List Op :=
  match W.remote with
  | some r =>
    let overwritten : RemoteState :=
      { r with name := pathName file.path, content := W.localBytes,
               modified := B.serverStamp }
    if B.updateOk then
      (.ok (), { W with remote := some overwritten }, [.update])
    else
      (.error .remoteWrite, W, [.update])
  | none => (.error .remoteWrite, W, [.update])

/-- `ServiceAccount.download`: one `files().get_media` call; on success the
local file's bytes are overwritten with the remote content, which stamps
the local file with the current clock. -/
def ServiceAccount.download (acct : ServiceAccount) (B : Backend) (W : FileWorld)
    (file : Syncable) : Except PyErr Unit × FileWorld × List Op :=
  match W.remote with
  | some r =>
    if B.downloadOk then
      (.ok (), { W with localBytes := r.content, localMtime := W.clock },
       [.download])
    else
      (.error .remoteRead, W, [.download])
  | none => (.error .remoteRead, W, [.download])

/-- `ServiceAccount.last_mod`: one `files().get(fields='modifiedTime')`
call, then the local `st_mtime` read as an aware UTC datetime and the
response's `modifiedTime` parsed with `fromisoformat`. The world is not
modified. -/
def ServiceAccount.last_mod (acct : ServiceAccount) (B : Backend) (W : FileWorld)
    (file : Syncable) : Except PyErr (PyDatetime × PyDatetime) × List Op :=
  match W.remote with
  | some r =>
    if B.metaOk then
      (.ok (fromtimestampUtc W.localMtime, fromisoformat r.modified), [.getMeta])
    else
      (.error .remoteRead, [.getMeta])
  | none => (.error .remoteRead, [.getMeta])

/-- `ServiceAccount.sync`, the decision engine: id absent → upload and
return; otherwise fetch both modification times and update when local is
strictly newer, download when remote is strictly newer, do nothing when
equal. The returned `Syncable` is the (possibly id-filled) target; the
trace records every remote call in order. -/
def ServiceAccount.sync (acct : ServiceAccount) (B : Backend) (W : FileWorld)
    (file : Syncable) : Except PyErr Syncable × FileWorld × List Op :=
  if file.id = none then
    ServiceAccount.upload acct B W file none
  else
    match ServiceAccount.last_mod acct B W file with
    | (.error e, ops) => (.error e, W, ops)
    | (.ok lmrm, ops) =>
      match PyDatetime.gtE lmrm.1 lmrm.2 with
      | .error e => (.error e, W, ops)
      | .ok true =>
        ((ServiceAccount.update acct B W file).1.map (fun _ => file),
         (ServiceAccount.update acct B W file).2.1,
         ops ++ (ServiceAccount.update acct B W file).2.2)
      | .ok false =>
        match PyDatetime.ltE lmrm.1 lmrm.2 with
        | .error e => (.error e, W, ops)
        | .ok true =>
          ((ServiceAccount.download acct B W file).1.map (fun _ => file),
           (ServiceAccount.download acct B W file).2.1,
           ops ++ (ServiceAccount.download acct B W file).2.2)
        | .ok false => (.ok file, W, ops)

/-- Occurrences of one remote call kind in a trace. -/
def countOp (op : Op) (ops : List Op) : Nat :=
  ops.countP (fun o => o == op)

/-- Python dict indexing `d[k]` on a JSON value: `KeyError` when the key is
missing, `TypeError` when the value is not a dict (objects keep at most one
pair per key after `json.load`, so first match is the match). -/
def JVal.lookupE : JVal → String → Except PyErr JVal
  | .obj fs, k =>
    match fs.find? (fun p => p.1 == k) with
    | some p => .ok p.2
    | none => .error .keyError
  | _, _ => .error .typeError

/-- Python `d.get(k, default)` (only reached on dicts in the code). -/
def JVal.getD : JVal → String → JVal → JVal
  | .obj fs, k, d =>
    match fs.find? (fun p => p.1 == k) with
    | some p => p.2
    | none => d
  | _, _, d => d

/-- Python dict assignment `d[k] = v` on the field list: replace the first
pair with that key in place, append a new pair at the end otherwise. -/
def setPairs (k : String) (v : JVal) : List (String × JVal) → List (String × JVal)
  | [] => [(k, v)]
  | p :: ps => if p.1 = k then (k, v) :: ps else p :: setPairs k v ps

/-- Python dict assignment `d[k] = v` on a JSON value (only reached on
dicts in the code; other values are returned unchanged). -/
def JVal.setKey : JVal → String → JVal → JVal
  | .obj fs, k, v => .obj (setPairs k v fs)
  | j, _, _ => j

/-- `Syncable(..., file.get("id", None))`: a JSON `null` (or an absent key)
is Python `None`, a string is the remote id. The code would accept another
JSON type here and only fail later inside the Drive call; the model
reports the type confusion at construction instead, which no manifest
produced by this program contains. -/
def idOfJVal : JVal → Except PyErr (Option String)
  | .null => .ok none
  | .str s => .ok (some s)
  | _ => .error .typeError

/-- The JSON value `json.dump` writes for a target's final id. -/
def jvalOfId : Option String → JVal
  | none => .null
  | some s => .str s

/-- One iteration of the `for file, file_detail in zip(files, files_details)`
loop: build the `Syncable` from the entry (lazily, as the `map` in the code
does), run `service.sync`, and on success store the resulting id back into
the entry (`file_detail["id"] = file.id`). On an error the entry is left as
it was, since the assignment follows the sync call. -/
def syncEntry (acct : ServiceAccount) (B : Backend) (W : FileWorld) (e : JVal) :
    Except PyErr JVal × List Op :=
  match e.lookupE "path" with
  | .error err => (.error err, [])
  | .ok (.str p) =>
    match idOfJVal (e.getD "id" .null) with
    | .error err => (.error err, [])
    | .ok oid =>
      match ServiceAccount.sync acct B W { path := p, id := oid } with
      | (.error err, _, ops) => (.error err, ops)
      | (.ok f, _, ops) => (.ok (e.setKey "id" (jvalOfId f.id)), ops)
  | .ok _ => (.error .typeError, [])

/-- The behaviour of one run, as far as the code outside `src/` decides it:
whether each group's credential file loads (`ConfigError` otherwise), and
the backend behaviour and file-world of the target at position `i` of
group `g`. Modelled from the spec where it concerns the backend (§4.1). -/
structure RunEnv where
  credsOk : Nat → Bool
  backend : Nat → Nat → Backend
  world : Nat → Nat → FileWorld

/-- Observable events of a run: a remote call made for file `i` of group
`g`, or a rewrite of the manifest document with the given contents. -/
inductive Ev where
  | remoteOp (g i : Nat) (op : Op)
  | manifestWrite (doc : JVal)

/-- The per-group file loop: entries are processed in list order, each
one's sync updating its manifest entry; the first error aborts the loop
(there is no handler around `service.sync` in the code). -/
def runFiles (env : RunEnv) (g : Nat) (acct : ServiceAccount) :
    List JVal → Nat → Except PyErr (List JVal) × List Ev
  | [], _ => (.ok [], [])
  | e :: rest, i =>
    match syncEntry acct (env.backend g i) (env.world g i) e with
    | (.error err, ops) => (.error err, ops.map (Ev.remoteOp g i))
    | (.ok e2, ops) =>
      match runFiles env g acct rest (i + 1) with
      | (.error err, evs) => (.error err, ops.map (Ev.remoteOp g i) ++ evs)
      | (.ok rest2, evs) => (.ok (e2 :: rest2), ops.map (Ev.remoteOp g i) ++ evs)

/-- One iteration of the `for details in sync_details["details"]` loop up
to but not including the manifest write: look up `credentials_file` (a
path, so a string), load the credentials, look up `root_folder` and
`files`, and run the file loop. On success the group's object carries the
updated entries. -/
def runGroup (env : RunEnv) (g : Nat) (details : JVal) :
    Except PyErr JVal × List Ev :=
  match details.lookupE "credentials_file" with
  | .error err => (.error err, [])
  | .ok (.str _) =>
    if env.credsOk g then
      match details.lookupE "root_folder" with
      | .error err => (.error err, [])
      | .ok root =>
        match details.lookupE "files" with
        | .error err => (.error err, [])
        | .ok (.arr entries) =>
          match runFiles env g { root := root } entries 0 with
          | (.error err, evs) => (.error err, evs)
          | (.ok entries2, evs) => (.ok (details.setKey "files" (.arr entries2)), evs)
        | .ok _ => (.error .typeError, [])
    else
      (.error .configError, [])
  | .ok _ => (.error .typeError, [])

/-- The group loop of `sync_from_file`. `pre` holds the groups already
processed (with their updated entries), `rest` the groups still to do; the
manifest file is rewritten after every group, inside the loop, with the
document as mutated so far — `doc` with its `details` value replaced by
`pre ++ current ++ rest`. An error in a group ends the run before that
group's write. -/
def runGroups (env : RunEnv) (doc : JVal) (pre : List JVal) :
    List JVal → Nat → Except PyErr (List JVal) × List Ev
  | [], _ => (.ok pre, [])
  | d :: rest, g =>
    match runGroup env g d with
    | (.error err, evs) => (.error err, evs)
    | (.ok d2, evs) =>
      match runGroups env doc (pre ++ [d2]) rest (g + 1) with
      | (res, evs2) =>
        (res, evs ++ Ev.manifestWrite (doc.setKey "details" (.arr (pre ++ d2 :: rest))) :: evs2)

/-- `sync_from_file` after `json.load` succeeded: iterate the groups of
`doc["details"]`. Iterating a non-list raises in the ways `TypeError`
summarises here. -/
def sync_from_file (env : RunEnv) (doc : JVal) : Except PyErr Unit × List Ev :=
  match doc.lookupE "details" with
  | .error err => (.error err, [])
  | .ok (.arr gs) =>
    match runGroups env doc [] gs 0 with
    | (.error err, evs) => (.error err, evs)
    | (.ok _, evs) => (.ok (), evs)
  | .ok _ => (.error .typeError, [])

/-- The whole of `sync_from_file`, including opening and parsing the
manifest: `none` models a manifest that is missing or is malformed JSON
(`json.load` raises before anything else happens). -/
def sync_from_file_load (env : RunEnv) (src : Option JVal) :
    Except PyErr Unit × List Ev :=
  match src with
  | none => (.error .configError, [])
  | some doc => sync_from_file env doc

/-- Number of manifest rewrites in a run's trace. -/
def countWrites (evs : List Ev) : Nat :=
  evs.countP (fun e => match e with | .manifestWrite _ => true | _ => false)

/-- Number of remote calls of one kind made for file `i` of group `g`. -/
def countRemote (g i : Nat) (op : Op) (evs : List Ev) : Nat :=
  evs.countP (fun e => match e with
    | .remoteOp g2 i2 op2 => g2 == g && i2 == i && op2 == op
    | _ => false)

/-- Number of remote calls of any kind in a run's trace. -/
def countRemoteAll (evs : List Ev) : Nat :=
  evs.countP (fun e => match e with | .remoteOp _ _ _ => true | _ => false)

/-- Drop every `"id"` field of a manifest file entry. -/
def eraseId : JVal → JVal
  | .obj fs => .obj (fs.filter (fun p => decide (p.1 ≠ "id")))
  | j => j

/-- Apply `f` to the value of every pair with key `k`. -/
def mapPairs (k : String) (f : JVal → JVal) (fs : List (String × JVal)) :
    List (String × JVal) :=
  fs.map (fun p => if p.1 = k then (p.1, f p.2) else p)

/-- Apply `f` to the value at key `k` of an object, elsewhere the identity. -/
def JVal.mapKey (j : JVal) (k : String) (f : JVal → JVal) : JVal :=
  match j with
  | .obj fs => .obj (mapPairs k f fs)
  | _ => j

/-- Apply `f` to every element of an array, elsewhere the identity. -/
def mapArr (f : JVal → JVal) : JVal → JVal
  | .arr xs => .arr (xs.map f)
  | j => j

/-- A credential group with the `"id"` fields of its file entries dropped. -/
def stripGroup (d : JVal) : JVal :=
  d.mapKey "files" (mapArr eraseId)

/-- A manifest document with all `files[*].id` fields dropped: two
documents with the same `stripIds` image differ at most in those fields. -/
def stripIds (d : JVal) : JVal :=
  d.mapKey "details" (mapArr stripGroup)

/-! ### Evaluation lemmas for the decision engine -/

theorem update_ops (acct : ServiceAccount) (B : Backend) (W : FileWorld)
    (file : Syncable) : (ServiceAccount.update acct B W file).2.2 = [.update] := by
  unfold ServiceAccount.update
  cases W.remote
  · rfl
  · simp only
    split <;> rfl

theorem download_ops (acct : ServiceAccount) (B : Backend) (W : FileWorld)
    (file : Syncable) : (ServiceAccount.download acct B W file).2.2 = [.download] := by
  unfold ServiceAccount.download
  cases W.remote
  · rfl
  · simp only
    split <;> rfl

theorem last_mod_eval (acct : ServiceAccount) (B : Backend) (W : FileWorld)
    (file : Syncable) (r : RemoteState) (hrem : W.remote = some r)
    (hmeta : B.metaOk = true) :
    ServiceAccount.last_mod acct B W file =
      (.ok (fromtimestampUtc W.localMtime, fromisoformat r.modified), [.getMeta]) := by
  unfold ServiceAccount.last_mod
  rw [hrem]
  simp [hmeta]

theorem gtE_eval (W : FileWorld) (t : ISOTimestamp) (off : Int)
    (hoff : t.offset = some off) :
    PyDatetime.gtE (fromtimestampUtc W.localMtime) (fromisoformat t) =
      .ok (decide (t.instant < W.localMtime)) := by
  simp [PyDatetime.gtE, PyDatetime.ltE, fromtimestampUtc, fromisoformat, hoff,
    ISOTimestamp.instant]

theorem ltE_eval (W : FileWorld) (t : ISOTimestamp) (off : Int)
    (hoff : t.offset = some off) :
    PyDatetime.ltE (fromtimestampUtc W.localMtime) (fromisoformat t) =
      .ok (decide (W.localMtime < t.instant)) := by
  simp [PyDatetime.ltE, fromtimestampUtc, fromisoformat, hoff, ISOTimestamp.instant]

/-- With a present id and a successful metadata call, a strictly newer
local file makes `sync` one `update` after the metadata read. -/
theorem sync_eval_gt (acct : ServiceAccount) (B : Backend) (W : FileWorld)
    (file : Syncable) (i : String) (r : RemoteState) (off : Int)
    (hid : file.id = some i) (hrem : W.remote = some r) (hmeta : B.metaOk = true)
    (hoff : r.modified.offset = some off) (hgt : r.modified.instant < W.localMtime) :
    ServiceAccount.sync acct B W file =
      ((ServiceAccount.update acct B W file).1.map (fun _ => file),
       (ServiceAccount.update acct B W file).2.1,
       .getMeta :: (ServiceAccount.update acct B W file).2.2) := by
  unfold ServiceAccount.sync
  rw [if_neg (by simp [hid]), last_mod_eval acct B W file r hrem hmeta]
  simp only [gtE_eval W r.modified off hoff, decide_eq_true hgt]
  rfl

/-- With a present id and a successful metadata call, a strictly newer
remote object makes `sync` one `download` after the metadata read. -/
theorem sync_eval_lt (acct : ServiceAccount) (B : Backend) (W : FileWorld)
    (file : Syncable) (i : String) (r : RemoteState) (off : Int)
    (hid : file.id = some i) (hrem : W.remote = some r) (hmeta : B.metaOk = true)
    (hoff : r.modified.offset = some off) (hlt : W.localMtime < r.modified.instant) :
    ServiceAccount.sync acct B W file =
      ((ServiceAccount.download acct B W file).1.map (fun _ => file),
       (ServiceAccount.download acct B W file).2.1,
       .getMeta :: (ServiceAccount.download acct B W file).2.2) := by
  unfold ServiceAccount.sync
  rw [if_neg (by simp [hid]), last_mod_eval acct B W file r hrem hmeta]
  simp only [gtE_eval W r.modified off hoff, ltE_eval W r.modified off hoff,
    decide_eq_true hlt, decide_eq_false (by omega : ¬ r.modified.instant < W.localMtime)]
  rfl

/-- With a present id, a successful metadata call and exactly equal
instants, `sync` only reads the metadata and changes nothing. -/
theorem sync_eval_eq (acct : ServiceAccount) (B : Backend) (W : FileWorld)
    (file : Syncable) (i : String) (r : RemoteState) (off : Int)
    (hid : file.id = some i) (hrem : W.remote = some r) (hmeta : B.metaOk = true)
    (hoff : r.modified.offset = some off) (heq : r.modified.instant = W.localMtime) :
    ServiceAccount.sync acct B W file = (.ok file, W, [.getMeta]) := by
  unfold ServiceAccount.sync
  rw [if_neg (by simp [hid]), last_mod_eval acct B W file r hrem hmeta]
  simp only [gtE_eval W r.modified off hoff, ltE_eval W r.modified off hoff,
    decide_eq_false (by omega : ¬ r.modified.instant < W.localMtime),
    decide_eq_false (by omega : ¬ W.localMtime < r.modified.instant)]

/-- On a target whose id is present, every normal return of `sync` hands
back the very same `Syncable` (only `upload` on an absent id fills it in). -/
theorem sync_fst_ok (acct : ServiceAccount) (B : Backend) (W : FileWorld)
    (file : Syncable) (i : String) (f2 : Syncable) (hid : file.id = some i)
    (h : (ServiceAccount.sync acct B W file).1 = .ok f2) : f2 = file := by
  unfold ServiceAccount.sync at h
  rw [if_neg (by simp [hid])] at h
  split at h
  · simp at h
  · split at h
    · simp at h
    · cases hu : (ServiceAccount.update acct B W file).1 with
      | error e => rw [hu] at h; simp [Except.map] at h
      | ok a => rw [hu] at h; simp [Except.map] at h; exact h.symm
    · split at h
      · simp at h
      · cases hd : (ServiceAccount.download acct B W file).1 with
        | error e => rw [hd] at h; simp [Except.map] at h
        | ok a => rw [hd] at h; simp [Except.map] at h; exact h.symm
      · simp at h; exact h.symm

/-! ### Concrete sample inputs used by witnesses and counterexamples -/

/-- A UTC modification stamp at the epoch. -/
def stampZ : ISOTimestamp := { value := 0, offset := some 0 }

/-- A session whose root folder id is the string "rootFolder". -/
def acct0 : ServiceAccount := { root := .str "rootFolder" }

/-- A backend that accepts every call, assigns id "N1" on create, and
stamps successful writes with the epoch (so a write leaves the stamp of
`remX` unchanged: modification timestamps stay frozen between runs). -/
def envB : Backend :=
  { newId := "N1", serverStamp := stampZ, createOk := true, updateOk := true,
    downloadOk := true, metaOk := true }

/-- A target that already has remote id "X". -/
def fileX : Syncable := { path := "a.txt", id := some "X" }

/-- The remote object behind id "X", last modified at the epoch. -/
def remX : RemoteState :=
  { name := pathName "a.txt", content := [7], modified := stampZ,
    parent := .str "rootFolder" }

/-- Local file strictly newer than the remote object (mtime 1 vs 0). -/
def worldGt : FileWorld :=
  { localBytes := [7], localMtime := 1, clock := 9, remote := some remX }

/-- Local file strictly older than the remote object (mtime -1 vs 0). -/
def worldLt : FileWorld :=
  { localBytes := [7], localMtime := -1, clock := 9, remote := some remX }

/-- Local and remote modification instants exactly equal (both 0). -/
def worldEq : FileWorld :=
  { localBytes := [7], localMtime := 0, clock := 9, remote := some remX }

/-- A target not yet created remotely. -/
def fileNew : Syncable := { path := "b.txt", id := none }

/-! ### C1, C2, C5, C6, C9, C10: the decision engine -/

/-- C1: for a target with a present remote id (and a metadata fetch the
backend answers), a strictly greater local modification instant makes sync
perform exactly one update and zero downloads, and a strictly smaller one
exactly one download and zero updates. -/
theorem sync_directionality (acct : ServiceAccount) (B : Backend) (W : FileWorld)
    (file : Syncable) (i : String) (r : RemoteState) (off : Int)
    (hid : file.id = some i) (hrem : W.remote = some r) (hmeta : B.metaOk = true)
    (hoff : r.modified.offset = some off) :
    (r.modified.instant < W.localMtime →
       countOp .update (ServiceAccount.sync acct B W file).2.2 = 1 ∧
       countOp .download (ServiceAccount.sync acct B W file).2.2 = 0) ∧
    (W.localMtime < r.modified.instant →
       countOp .download (ServiceAccount.sync acct B W file).2.2 = 1 ∧
       countOp .update (ServiceAccount.sync acct B W file).2.2 = 0) := by
  constructor
  · intro hgt
    rw [sync_eval_gt acct B W file i r off hid hrem hmeta hoff hgt,
        update_ops acct B W file]
    exact ⟨rfl, rfl⟩
  · intro hlt
    rw [sync_eval_lt acct B W file i r off hid hrem hmeta hoff hlt,
        download_ops acct B W file]
    exact ⟨rfl, rfl⟩

theorem sync_directionality_witness :
    (countOp .update (ServiceAccount.sync acct0 envB worldGt fileX).2.2 = 1 ∧
     countOp .download (ServiceAccount.sync acct0 envB worldGt fileX).2.2 = 0) ∧
    (countOp .download (ServiceAccount.sync acct0 envB worldLt fileX).2.2 = 1 ∧
     countOp .update (ServiceAccount.sync acct0 envB worldLt fileX).2.2 = 0) :=
  ⟨(sync_directionality acct0 envB worldGt fileX "X" remX 0 rfl rfl rfl rfl).1
      (by decide),
   (sync_directionality acct0 envB worldLt fileX "X" remX 0 rfl rfl rfl rfl).2
      (by decide)⟩

/-- C2: for a target with an absent remote id (and a create the backend
accepts), sync performs exactly one create, fills the target's id with the
id that create returned, and returns without any metadata fetch: the trace
is exactly `[create]`, so no modification times are compared. -/
theorem sync_first_upload (acct : ServiceAccount) (B : Backend) (W : FileWorld)
    (file : Syncable) (hid : file.id = none) (hc : B.createOk = true) :
    ServiceAccount.sync acct B W file =
      (.ok { file with id := some B.newId },
       { W with remote := some { name := pathName file.path,
                                 content := W.localBytes,
                                 modified := B.serverStamp,
                                 parent := acct.root } },
       [.create]) := by
  unfold ServiceAccount.sync ServiceAccount.upload
  rw [if_pos hid]
  simp [hc]

theorem sync_first_upload_witness :
    ServiceAccount.sync acct0 envB worldGt fileNew =
      (.ok { fileNew with id := some envB.newId },
       { worldGt with remote := some { name := pathName fileNew.path,
                                       content := worldGt.localBytes,
                                       modified := envB.serverStamp,
                                       parent := acct0.root } },
       [.create]) :=
  sync_first_upload acct0 envB worldGt fileNew rfl rfl

/-- C5: with a present remote id and exactly equal local and remote
modification instants, sync performs no create, no update and no download:
it only reads the metadata and returns the target and the world unchanged. -/
theorem sync_equal_noop (acct : ServiceAccount) (B : Backend) (W : FileWorld)
    (file : Syncable) (i : String) (r : RemoteState) (off : Int)
    (hid : file.id = some i) (hrem : W.remote = some r) (hmeta : B.metaOk = true)
    (hoff : r.modified.offset = some off) (heq : r.modified.instant = W.localMtime) :
    ServiceAccount.sync acct B W file = (.ok file, W, [.getMeta]) :=
  sync_eval_eq acct B W file i r off hid hrem hmeta hoff heq

theorem sync_equal_noop_witness :
    ServiceAccount.sync acct0 envB worldEq fileX = (.ok fileX, worldEq, [.getMeta]) :=
  sync_equal_noop acct0 envB worldEq fileX "X" remX 0 rfl rfl rfl rfl (by decide)

/-- C6 counterexample: a target with id "X", local mtime 1, remote stamp 0,
and a backend whose write stamp leaves every timestamp frozen. The first
sync performs an update yet leaves the world — local file, local mtime and
both modification stamps — literally unchanged, so the second run meets a
target, local file and timestamps unchanged since the first; it still
performs one update, not zero. -/
theorem sync_twice_counterexample :
    (ServiceAccount.sync acct0 envB worldGt fileX).2.1 = worldGt ∧
    countOp .update (ServiceAccount.sync acct0 envB worldGt fileX).2.2 = 1 ∧
    ¬ countOp .update (ServiceAccount.sync acct0 envB
        (ServiceAccount.sync acct0 envB worldGt fileX).2.1 fileX).2.2 = 0 := by
  refine ⟨rfl, rfl, by decide⟩

/-- C6 amended: running sync twice in succession with a present remote id
is a no-op on the second run when the pair is already in sync (equal
modification instants, so the first run is itself a no-op): both runs
perform zero creates, updates and downloads. (With unequal instants and
timestamps frozen between the runs, the second run repeats the first
run's action instead — see the counterexample.) -/
theorem sync_twice_noop_when_synced (acct : ServiceAccount) (B : Backend)
    (W : FileWorld) (file : Syncable) (i : String) (r : RemoteState) (off : Int)
    (hid : file.id = some i) (hrem : W.remote = some r) (hmeta : B.metaOk = true)
    (hoff : r.modified.offset = some off) (heq : r.modified.instant = W.localMtime) :
    ServiceAccount.sync acct B W file = (.ok file, W, [.getMeta]) ∧
    ServiceAccount.sync acct B (ServiceAccount.sync acct B W file).2.1 file
      = (.ok file, W, [.getMeta]) := by
  have h1 := sync_eval_eq acct B W file i r off hid hrem hmeta hoff heq
  refine ⟨h1, ?_⟩
  rw [h1]
  exact h1

theorem sync_twice_noop_when_synced_witness :
    ServiceAccount.sync acct0 envB worldEq fileX = (.ok fileX, worldEq, [.getMeta]) ∧
    ServiceAccount.sync acct0 envB
        (ServiceAccount.sync acct0 envB worldEq fileX).2.1 fileX
      = (.ok fileX, worldEq, [.getMeta]) :=
  sync_twice_noop_when_synced acct0 envB worldEq fileX "X" remX 0 rfl rfl rfl rfl
    (by decide)

/-- C9: a target whose remote id is already present when sync starts has
the same remote id and the same local path when sync returns normally,
whichever of the update, download or no-op branches ran. -/
theorem sync_preserves_id_and_path (acct : ServiceAccount) (B : Backend)
    (W : FileWorld) (file : Syncable) (i : String) (f2 : Syncable)
    (hid : file.id = some i)
    (h : (ServiceAccount.sync acct B W file).1 = .ok f2) :
    f2.id = some i ∧ f2.path = file.path := by
  have he := sync_fst_ok acct B W file i f2 hid h
  subst he
  exact ⟨hid, rfl⟩

theorem sync_preserves_id_and_path_witness :
    fileX.id = some "X" ∧ fileX.path = fileX.path :=
  sync_preserves_id_and_path acct0 envB worldGt fileX "X" fileX rfl rfl

/-- C10: for a valid remote id (the backend answers the metadata call),
`last_mod` returns the local mtime as an aware UTC datetime and the remote
`modifiedTime` — which the backend serves as an RFC 3339 UTC timestamp —
as an aware UTC datetime, and the strict comparisons between the two are
well-defined (no `TypeError`). -/
theorem last_mod_aware_utc (acct : ServiceAccount) (B : Backend) (W : FileWorld)
    (file : Syncable) (r : RemoteState)
    (hrem : W.remote = some r) (hmeta : B.metaOk = true)
    (hz : r.modified.offset = some 0) :
    ∃ lm rm, ServiceAccount.last_mod acct B W file = (.ok (lm, rm), [.getMeta]) ∧
      lm.offset = some 0 ∧ rm.offset = some 0 ∧
      (∃ b, PyDatetime.gtE lm rm = .ok b) ∧ (∃ b, PyDatetime.ltE lm rm = .ok b) := by
  refine ⟨fromtimestampUtc W.localMtime, fromisoformat r.modified,
    last_mod_eval acct B W file r hrem hmeta, rfl, by simp [fromisoformat, hz],
    ⟨_, gtE_eval W r.modified 0 hz⟩, ⟨_, ltE_eval W r.modified 0 hz⟩⟩

theorem last_mod_aware_utc_witness :
    ∃ lm rm, ServiceAccount.last_mod acct0 envB worldGt fileX
        = (.ok (lm, rm), [.getMeta]) ∧
      lm.offset = some 0 ∧ rm.offset = some 0 ∧
      (∃ b, PyDatetime.gtE lm rm = .ok b) ∧ (∃ b, PyDatetime.ltE lm rm = .ok b) :=
  last_mod_aware_utc acct0 envB worldGt fileX remX rfl rfl rfl

/-! ### Counting lemmas for run traces -/

theorem countWrites_map_remoteOp (g i : Nat) (ops : List Op) :
    countWrites (ops.map (Ev.remoteOp g i)) = 0 := by
  induction ops with
  | nil => rfl
  | cons o os ih => simpa [countWrites, List.countP_cons] using ih

theorem countWrites_append (a b : List Ev) :
    countWrites (a ++ b) = countWrites a + countWrites b := by
  simp [countWrites, List.countP_append]

theorem countWrites_runFiles (env : RunEnv) (g : Nat) (acct : ServiceAccount) :
    ∀ (es : List JVal) (i : Nat), countWrites (runFiles env g acct es i).2 = 0 := by
  intro es
  induction es with
  | nil => intro i; rfl
  | cons e rest ih =>
    intro i
    unfold runFiles
    cases hs : syncEntry acct (env.backend g i) (env.world g i) e with
    | mk res ops =>
      cases res with
      | error err => simpa using countWrites_map_remoteOp g i ops
      | ok e2 =>
        cases hr : runFiles env g acct rest (i + 1) with
        | mk res2 evs =>
          cases res2 with
          | error err =>
            simp only
            rw [countWrites_append, countWrites_map_remoteOp]
            have := ih (i + 1)
            rw [hr] at this
            simpa using this
          | ok rest2 =>
            simp only
            rw [countWrites_append, countWrites_map_remoteOp]
            have := ih (i + 1)
            rw [hr] at this
            simpa using this

theorem countWrites_runGroup (env : RunEnv) (g : Nat) (d : JVal) :
    countWrites (runGroup env g d).2 = 0 := by
  unfold runGroup
  repeat' split
  all_goals try rfl
  all_goals
    rename_i heq
    have h := congrArg (fun q : Except PyErr (List JVal) × List Ev => countWrites q.2) heq
    exact h.symm.trans (countWrites_runFiles env g _ _ 0)

theorem countWrites_runGroups (env : RunEnv) (doc : JVal) :
    ∀ (gs pre : List JVal) (g : Nat) (out : List JVal),
      (runGroups env doc pre gs g).1 = .ok out →
      countWrites (runGroups env doc pre gs g).2 = gs.length := by
  intro gs
  induction gs with
  | nil =>
    intro pre g out h
    rfl
  | cons d rest ih =>
    intro pre g out h
    unfold runGroups at h ⊢
    cases hg : runGroup env g d with
    | mk res evs =>
      rw [hg] at h
      cases res with
      | error err => simp at h
      | ok d2 =>
        simp only at h ⊢
        cases hr : runGroups env doc (pre ++ [d2]) rest (g + 1) with
        | mk res2 evs2 =>
          rw [hr] at h
          simp only at h ⊢
          rw [countWrites_append]
          have hg0 := countWrites_runGroup env g d
          rw [hg] at hg0
          have ih2 := ih (pre ++ [d2]) (g + 1) out (by rw [hr]; exact h)
          rw [hr] at ih2
          simp only [countWrites, List.countP_cons, List.length_cons, if_true] at ih2 hg0 ⊢
          omega

/-! ### Concrete manifests and run environments -/

/-- A file entry that already has remote id "X". -/
def entryX : JVal := .obj [("path", .str "a.txt"), ("id", .str "X")]

/-- A file entry not yet created remotely (`"id": null`). -/
def entryNew : JVal := .obj [("path", .str "b.txt"), ("id", .null)]

/-- A credential group with the single already-synced entry. -/
def group1 : JVal :=
  .obj [("credentials_file", .str "c1.json"), ("root_folder", .str "r1"),
        ("files", .arr [entryX])]

/-- A second credential group with the single not-yet-created entry. -/
def group2 : JVal :=
  .obj [("credentials_file", .str "c2.json"), ("root_folder", .str "r2"),
        ("files", .arr [entryNew])]

/-- A manifest with one credential group. -/
def docOneGroup : JVal := .obj [("details", .arr [group1])]

/-- A manifest with two credential groups. -/
def docTwoGroups : JVal := .obj [("details", .arr [group1, group2])]

/-- A single group whose first entry is already synced but will fail on
update, and whose second entry still needs its first upload. -/
def groupBad : JVal :=
  .obj [("credentials_file", .str "c1.json"), ("root_folder", .str "r1"),
        ("files", .arr [entryX, entryNew])]

/-- A manifest with the one failing group. -/
def docBad : JVal := .obj [("details", .arr [groupBad])]

/-- Every credential file loads and every remote call succeeds; each
target's world has equal local and remote modification instants. -/
def envAllOk : RunEnv :=
  { credsOk := fun _ => true, backend := fun _ _ => envB,
    world := fun _ _ => worldEq }

/-- Credentials load, but the backend rejects the update of the first file
of each group; each target's local file is strictly newer than its remote. -/
def envUpdateFails : RunEnv :=
  { credsOk := fun _ => true,
    backend := fun _ i => if i = 0 then { envB with updateOk := false } else envB,
    world := fun _ _ => worldGt }

/-- Only the first group's credential file loads. -/
def envCredsFail2 : RunEnv :=
  { credsOk := fun g => g == 0, backend := fun _ _ => envB,
    world := fun _ _ => worldEq }

/-! ### C3, C4, C7: the manifest runner -/

/-- C3 counterexample: on a manifest with two credential groups and a run
in which every sync succeeds, the manifest document is written twice — the
write sits inside the per-group loop — so it is not written exactly once
per run. -/
theorem manifest_write_per_group_counterexample :
    countWrites (sync_from_file envAllOk docTwoGroups).2 = 2 ∧
    ¬ countWrites (sync_from_file envAllOk docTwoGroups).2 = 1 :=
  ⟨rfl, by decide⟩

/-- C3 amended: on a successful run the manifest document is written back
exactly once per credential group — after that group's files have all been
processed, never per file — so a run over `n` groups writes it `n` times
(once at the end for a single-group manifest), each write carrying the
document as mutated so far. -/
theorem manifest_write_once_per_group (env : RunEnv) (doc : JVal) (gs : List JVal)
    (hgs : doc.lookupE "details" = .ok (.arr gs))
    (hok : (sync_from_file env doc).1 = .ok ()) :
    countWrites (sync_from_file env doc).2 = gs.length := by
  unfold sync_from_file at hok ⊢
  rw [hgs] at hok
  simp only [hgs]
  have hok2 : ((match runGroups env doc [] gs 0 with
      | (Except.error err, evs) => ((Except.error err : Except PyErr Unit), evs)
      | (Except.ok _, evs) => (Except.ok (), evs)) :
        Except PyErr Unit × List Ev).1 = Except.ok () := hok
  clear hok
  cases hr : runGroups env doc [] gs 0 with
  | mk res evs =>
    cases res with
    | error err =>
      rw [hr] at hok2
      simp at hok2
    | ok out =>
      have h := countWrites_runGroups env doc gs [] 0 out (by rw [hr])
      rw [hr] at h
      exact h

theorem manifest_write_once_per_group_witness :
    countWrites (sync_from_file envAllOk docOneGroup).2 = [group1].length :=
  manifest_write_once_per_group envAllOk docOneGroup [group1] rfl rfl

/-- C4: the code has no handler around `service.sync(file)`, so one failing
file aborts the whole run. On a single-group manifest whose first entry's
update is rejected by the backend, the run ends with that error after the
two remote calls for file 0: file 1 is never attempted (zero creates for
it) and the manifest is never rewritten — against the claim (and spec
§4.3), under which file 1 would still sync and the manifest would be
written; spec §7/§9 flag this abort as likely unintended. -/
theorem sync_error_aborts_run :
    sync_from_file envUpdateFails docBad
      = (.error .remoteWrite, [.remoteOp 0 0 .getMeta, .remoteOp 0 0 .update]) ∧
    countWrites (sync_from_file envUpdateFails docBad).2 = 0 ∧
    countRemote 0 1 .create (sync_from_file envUpdateFails docBad).2 = 0 :=
  ⟨rfl, rfl, rfl⟩

/-- C7 counterexample: on a manifest with two groups in which the second
group's credential file fails to load (a ConfigError), the first group has
already made a remote call and the manifest has already been rewritten
once before the run aborts. -/
theorem config_error_after_remote_calls :
    (sync_from_file envCredsFail2 docTwoGroups).1 = .error .configError ∧
    countRemoteAll (sync_from_file envCredsFail2 docTwoGroups).2 = 1 ∧
    countWrites (sync_from_file envCredsFail2 docTwoGroups).2 = 1 :=
  ⟨rfl, rfl, rfl⟩

/-- C7 amended: a ConfigError raised while the manifest itself is loaded
(missing file or malformed JSON), or by a missing top-level `details`, or
by the very first group's credential file, aborts the run before any
remote call and with no manifest write at all. A ConfigError in a later
group still aborts the run before any of that group's remote calls, but
the earlier groups' remote calls and per-group manifest writes have
already happened (see the counterexample). -/
theorem config_error_early_abort (env : RunEnv) (src : Option JVal)
    (h : src = none ∨
      (∃ doc e, src = some doc ∧ doc.lookupE "details" = .error e) ∨
      (∃ doc d rest s, src = some doc ∧
        doc.lookupE "details" = .ok (.arr (d :: rest)) ∧
        d.lookupE "credentials_file" = .ok (.str s) ∧ env.credsOk 0 = false)) :
    (∃ e, (sync_from_file_load env src).1 = .error e) ∧
    (sync_from_file_load env src).2 = [] := by
  rcases h with rfl | ⟨doc, e, rfl, hd⟩ | ⟨doc, d, rest, s, rfl, hd, hc, hcr⟩
  · exact ⟨⟨.configError, rfl⟩, rfl⟩
  · have hs : sync_from_file env doc = (.error e, []) := by
      unfold sync_from_file
      rw [hd]
    exact ⟨⟨e, by simp [sync_from_file_load, hs]⟩, by simp [sync_from_file_load, hs]⟩
  · have hrg : runGroup env 0 d = (.error .configError, []) := by
      unfold runGroup
      rw [hc]
      simp [hcr]
    have hgs : runGroups env doc [] (d :: rest) 0 = (.error .configError, []) := by
      unfold runGroups
      rw [hrg]
    have hs : sync_from_file env doc = (.error .configError, []) := by
      unfold sync_from_file
      rw [hd]
      simp only
      rw [hgs]
    exact ⟨⟨.configError, by simp [sync_from_file_load, hs]⟩,
           by simp [sync_from_file_load, hs]⟩

theorem config_error_early_abort_witness :
    (∃ e, (sync_from_file_load envAllOk none).1 = .error e) ∧
    (sync_from_file_load envAllOk none).2 = [] :=
  config_error_early_abort envAllOk none (Or.inl rfl)

/-! ### Field preservation: only `files[*].id` ever changes -/

theorem filter_setPairs (k : String) (v : JVal) :
    ∀ fs : List (String × JVal),
      (setPairs k v fs).filter (fun p => !decide (p.1 = k)) =
      fs.filter (fun p => !decide (p.1 = k)) := by
  intro fs
  induction fs with
  | nil => simp [setPairs]
  | cons p ps ih =>
    by_cases h : p.1 = k
    · simp [setPairs, h, List.filter_cons]
    · simp [setPairs, h, List.filter_cons, ih]

theorem eraseId_setKey (e v : JVal) : eraseId (e.setKey "id" v) = eraseId e := by
  cases e <;> try rfl
  simp [JVal.setKey, eraseId, filter_setPairs]

theorem mapPairs_setPairs (k : String) (f : JVal → JVal) (v : JVal) :
    ∀ (fs : List (String × JVal)) (q : String × JVal),
      fs.find? (fun p => p.1 == k) = some q → f v = f q.2 →
      mapPairs k f (setPairs k v fs) = mapPairs k f fs := by
  intro fs
  induction fs with
  | nil =>
    intro q hfind hfv
    simp at hfind
  | cons p ps ih =>
    intro q hfind hfv
    by_cases h : p.1 = k
    · rw [List.find?_cons_of_pos _ (by simp [h])] at hfind
      have hq : q = p := by
        injection hfind with hq
        exact hq.symm
      subst hq
      simp [setPairs, h, mapPairs, hfv]
    · rw [List.find?_cons_of_neg _ (by simp [h])] at hfind
      simp only [setPairs, mapPairs, if_neg h, List.map_cons]
      have := ih q hfind hfv
      simp only [mapPairs] at this
      rw [this]

theorem mapKey_setKey (j : JVal) (k : String) (f : JVal → JVal) (v w : JVal)
    (hl : j.lookupE k = .ok w) (hf : f v = f w) :
    (j.setKey k v).mapKey k f = j.mapKey k f := by
  cases j with
  | obj fs =>
    simp only [JVal.lookupE] at hl
    cases hq : fs.find? (fun p => p.1 == k) with
    | none => rw [hq] at hl; simp at hl
    | some q =>
      rw [hq] at hl
      simp only [Except.ok.injEq] at hl
      simp only [JVal.setKey, JVal.mapKey]
      rw [mapPairs_setPairs k f v fs q hq (by rw [hf, ← hl])]
  | null => simp [JVal.lookupE] at hl
  | bool b => simp [JVal.lookupE] at hl
  | num n => simp [JVal.lookupE] at hl
  | str s => simp [JVal.lookupE] at hl
  | arr xs => simp [JVal.lookupE] at hl

theorem not_mem_write_of_countWrites_zero {evs : List Ev} (h : countWrites evs = 0)
    (w : JVal) : Ev.manifestWrite w ∉ evs := by
  intro hm
  have h2 := List.countP_eq_zero.mp h _ hm
  simp at h2

theorem eraseId_syncEntry (acct : ServiceAccount) (B : Backend) (W : FileWorld)
    (e e2 : JVal) (ops : List Op)
    (h : syncEntry acct B W e = (.ok e2, ops)) : eraseId e2 = eraseId e := by
  unfold syncEntry at h
  split at h
  · exact absurd h (by simp)
  · split at h
    · exact absurd h (by simp)
    · split at h
      · exact absurd h (by simp)
      · rw [Prod.mk.injEq] at h
        obtain ⟨h1, h2⟩ := h
        rw [Except.ok.injEq] at h1
        rw [← h1]
        exact eraseId_setKey e _
  · exact absurd h (by simp)

theorem eraseId_runFiles (env : RunEnv) (g : Nat) (acct : ServiceAccount) :
    ∀ (es : List JVal) (i : Nat) (es2 : List JVal) (evs : List Ev),
      runFiles env g acct es i = (.ok es2, evs) →
      es2.map eraseId = es.map eraseId := by
  intro es
  induction es with
  | nil =>
    intro i es2 evs h
    unfold runFiles at h
    rw [Prod.mk.injEq] at h
    obtain ⟨h1, h2⟩ := h
    rw [Except.ok.injEq] at h1
    rw [← h1]
  | cons e rest ih =>
    intro i es2 evs h
    unfold runFiles at h
    cases hs : syncEntry acct (env.backend g i) (env.world g i) e with
    | mk sres sops =>
      rw [hs] at h
      cases sres with
      | error err => simp at h
      | ok e2 =>
        cases hr : runFiles env g acct rest (i + 1) with
        | mk rres revs =>
          rw [hr] at h
          cases rres with
          | error err => simp at h
          | ok rest2 =>
            simp only [Prod.mk.injEq, Except.ok.injEq] at h
            rw [← h.1, List.map_cons, List.map_cons,
                eraseId_syncEntry acct (env.backend g i) (env.world g i) e e2 sops hs,
                ih (i + 1) rest2 revs hr]

theorem stripGroup_runGroup (env : RunEnv) (g : Nat) (d d2 : JVal) (evs : List Ev)
    (h : runGroup env g d = (.ok d2, evs)) : stripGroup d2 = stripGroup d := by
  unfold runGroup at h
  repeat' split at h
  all_goals try (injection h with h1 h2; injection h1; done)
  rename_i xc p hcred hcOk xr root hroot xf entries hfiles xpr rest2 evs0 hrf
  injection h with h1 h2
  injection h1 with h1
  have harr : mapArr eraseId (.arr rest2) = mapArr eraseId (.arr entries) := by
    simp only [mapArr]
    rw [eraseId_runFiles env g { root := root } entries 0 rest2 evs0 hrf]
  rw [← h1]
  unfold stripGroup
  exact mapKey_setKey d "files" (mapArr eraseId) (.arr rest2) (.arr entries) hfiles harr

theorem stripIds_runGroups (env : RunEnv) (doc : JVal) (gs0 : List JVal)
    (hdoc : doc.lookupE "details" = .ok (.arr gs0)) :
    ∀ (gs pre pre0 : List JVal) (g : Nat) (w : JVal),
      gs0 = pre0 ++ gs →
      pre.map stripGroup = pre0.map stripGroup →
      Ev.manifestWrite w ∈ (runGroups env doc pre gs g).2 →
      stripIds w = stripIds doc := by
  intro gs
  induction gs with
  | nil =>
    intro pre pre0 g w hsplit hmap hm
    simp [runGroups] at hm
  | cons d rest ih =>
    intro pre pre0 g w hsplit hmap hm
    unfold runGroups at hm
    cases hg : runGroup env g d with
    | mk res evs =>
      rw [hg] at hm
      cases res with
      | error err =>
        have h0 := countWrites_runGroup env g d
        rw [hg] at h0
        exact absurd hm (not_mem_write_of_countWrites_zero h0 w)
      | ok d2 =>
        have hm2 : Ev.manifestWrite w ∈
            evs ++ Ev.manifestWrite (doc.setKey "details" (JVal.arr (pre ++ d2 :: rest)))
              :: (runGroups env doc (pre ++ [d2]) rest (g + 1)).2 := hm
        clear hm
        simp only [List.mem_append, List.mem_cons] at hm2
        rcases hm2 with hm | hm | hm
        · have h0 := countWrites_runGroup env g d
          rw [hg] at h0
          exact absurd hm (not_mem_write_of_countWrites_zero h0 w)
        · injection hm with hw
          subst hw
          have hmaps : (pre ++ d2 :: rest).map stripGroup = gs0.map stripGroup := by
            rw [hsplit]
            simp only [List.map_append, List.map_cons]
            rw [hmap, stripGroup_runGroup env g d d2 evs hg]
          unfold stripIds
          exact mapKey_setKey doc "details" (mapArr stripGroup)
            (.arr (pre ++ d2 :: rest)) (.arr gs0) hdoc
            (by simp only [mapArr]; rw [hmaps])
        · have hsplit2 : gs0 = (pre0 ++ [d]) ++ rest := by
            rw [hsplit, List.append_assoc]
            rfl
          have hmap2 : (pre ++ [d2]).map stripGroup = (pre0 ++ [d]).map stripGroup := by
            simp only [List.map_append, List.map_cons, List.map_nil]
            rw [hmap, stripGroup_runGroup env g d d2 evs hg]
          exact ih (pre ++ [d2]) (pre0 ++ [d]) (g + 1) w hsplit2 hmap2 hm

/-- C8: every version of the manifest document the runner writes out
differs from the original document at most in the `files[*].id` fields:
stripping those fields yields the original document, so every other key —
known or unknown, at top level, group level or entry level — is present
with its original value, in its original position. -/
theorem manifest_preserves_non_id_fields (env : RunEnv) (doc w : JVal)
    (h : Ev.manifestWrite w ∈ (sync_from_file env doc).2) :
    stripIds w = stripIds doc := by
  unfold sync_from_file at h
  cases hl : doc.lookupE "details" with
  | error e =>
    rw [hl] at h
    simp at h
  | ok v =>
    rw [hl] at h
    cases v with
    | arr gs =>
      have h2 : Ev.manifestWrite w ∈
          (match runGroups env doc [] gs 0 with
           | (Except.error err, evs) => ((Except.error err : Except PyErr Unit), evs)
           | (Except.ok _, evs) => (Except.ok (), evs)).2 := h
      clear h
      have h3 : Ev.manifestWrite w ∈ (runGroups env doc [] gs 0).2 := by
        cases hr : runGroups env doc [] gs 0 with
        | mk res evs =>
          rw [hr] at h2
          cases res with
          | error err => simpa using h2
          | ok out => simpa using h2
      exact stripIds_runGroups env doc gs hl gs [] [] 0 w rfl rfl h3
    | null => simp at h
    | bool b => simp at h
    | num n => simp at h
    | str s => simp at h
    | obj fs => simp at h

theorem manifest_preserves_non_id_fields_witness :
    stripIds (docOneGroup.setKey "details"
      (.arr [group1.setKey "files" (.arr [entryX.setKey "id" (.str "X")])]))
      = stripIds docOneGroup :=
  manifest_preserves_non_id_fields envAllOk docOneGroup _
    (List.Mem.tail _ (List.Mem.head _))
